import Mathlib

/-!
# Verification of `Rastro_app.py` (leomanutencoes/rastro-legal)

Shallow embedding of the IA module of `src/Rastro_app.py`: the
`IAInvestigation` helper (known-faces cache, face recognition, entity
correlation, social-connection analysis) and the Flask routes wrapping it.

Modelling conventions:
* A Python `dict` (insertion ordered, unique keys) is an association list
  `List (String × α)`; updating an existing key overwrites the value in
  place, a new key is appended at the end (`dictInsert`).
* Face encodings are abstract: definitions are parametric in an encoding
  type `Enc` and a distance function `d : Enc → Enc → ℚ` standing for
  `face_recognition.face_distance` on a pair of encodings
  (`compare_faces` is `face_distance ≤ 0.6`, the library default).
* An image that the library can decode is a `FaceImage`, carrying the list
  of detected faces (location, encoding), i.e. the combined result of
  `face_locations` / `face_encodings`; `none` stands for a file
  `load_image_file` raises on.
* Fallible exterior operations (file save, file remove, JSON body parse)
  are explicit `Bool`/`Option` parameters; a caught Python exception
  becomes an `Except` error.
-/

namespace RastroLegal

/-- Python dict update `m[k] = v`: overwrite in place if the key exists,
otherwise append at the end (insertion order). -/
def dictInsert {α : Type} (k : String) (v : α) : List (String × α) → List (String × α)
  | [] => [(k, v)]
  | (k', v') :: rest => if k' = k then (k, v) :: rest else (k', v') :: dictInsert k v rest

/-- Python dict lookup `m.get(k)`. -/
def dlookup {α : Type} (k : String) : List (String × α) → Option α
  | [] => none
  | (k', v) :: rest => if k' = k then some v else dlookup k rest

/-- Model of `os.remove` on a saved upload: drop the entry with that filename. -/
def dremove {α : Type} (k : String) (m : List (String × α)) : List (String × α) :=
  m.filter (fun p => p.1 ≠ k)

/-- Python `round(x, 2)`: round to two decimal places. -/
def round2 (q : ℚ) : ℚ := (round (q * 100) : ℤ) / 100

/-- Default tolerance 0.6 of `face_recognition.compare_faces`. -/
def faceTolerance : ℚ := 3 / 5

/-- A face location as returned by `face_recognition.face_locations`
(top, right, bottom, left). -/
abbrev Loc := ℕ × ℕ × ℕ × ℕ

/-- A decodable image, abstracted to the faces the library detects in it:
parallel `face_locations` / `face_encodings` data. -/
structure FaceImage (Enc : Type) where
  faces : List (Loc × Enc)

/-- One entry of the list returned by `IAInvestigation.recognize_faces`. -/
structure RecogResult where
  location : Loc
  name : String
  confidence : ℚ
deriving DecidableEq

/-- Model of `np.argmin`: index of the first minimum of a list; `none` on the empty
list (where NumPy raises `ValueError`). -/
def argminIdx : List ℚ → Option ℕ
  | [] => none
  | x :: xs =>
    match argminIdx xs with
    | none => some 0
    | some j => if x ≤ xs.getD j 0 then some 0 else some (j + 1)

section Faces

variable {Enc : Type}

/-- Model of `face_recognition.compare_faces(known, enc)` with the default
tolerance: one boolean per known encoding. -/
def compare_faces (d : Enc → Enc → ℚ) (known : List Enc) (enc : Enc) : List Bool :=
  known.map (fun k => decide (d k enc ≤ faceTolerance))

/-- Model of `face_recognition.face_distance(known, enc)`: one distance per known
encoding. -/
def face_distance (d : Enc → Enc → ℚ) (known : List Enc) (enc : Enc) : List ℚ :=
  known.map (fun k => d k enc)

/-- The body of the `for` loop of `recognize_faces` for one detected face:
compare with the known faces, take the best (minimum-distance) match if it
is within tolerance, else `"Desconhecido"`. `Except.error` is the
`ValueError` `np.argmin` raises when there are no known faces. -/
def recognizeOne (kf : List (String × Enc)) (d : Enc → Enc → ℚ) (loc : Loc) (enc : Enc) :
    Except Unit RecogResult :=
  let matchResults := compare_faces d (kf.map Prod.snd) enc
  let face_distances := face_distance d (kf.map Prod.snd) enc
  match argminIdx face_distances with
  | none => .error ()
  | some best =>
    if matchResults.getD best false then
      .ok ⟨loc, (kf.map Prod.fst).getD best "", round2 (1 - face_distances.getD best 0)⟩
    else
      .ok ⟨loc, "Desconhecido", round2 0⟩

/-- The `for` loop of `recognize_faces` over all detected faces; an
exception at any face aborts the whole loop. -/
def recognizeAll (kf : List (String × Enc)) (d : Enc → Enc → ℚ) :
    List (Loc × Enc) → Except Unit (List RecogResult)
  | [] => .ok []
  | f :: rest =>
    match recognizeOne kf d f.1 f.2 with
    | .error e => .error e
    | .ok r =>
      match recognizeAll kf d rest with
      | .error e => .error e
      | .ok rs => .ok (r :: rs)

/-- Embedding of `IAInvestigation.recognize_faces`: detect the faces of the uploaded
image and match each against the known-faces dict; the broad
`except` returns `[]` on any exception (undecodable file, or `np.argmin`
on an empty cache). -/
def recognize_faces (kf : List (String × Enc)) (d : Enc → Enc → ℚ)
    (img : Option (FaceImage Enc)) : List RecogResult :=
  match img with
  | none => []
  | some image =>
    match recognizeAll kf d image.faces with
    | .ok l => l
    | .error _ => []

/-- Python `s.lower()`, character by character. -/
def strLower (s : String) : String :=
  ⟨s.data.map Char.toLower⟩

/-- Python `s.endswith(suffix)`: the last `suffix.length` characters of
`s` equal `suffix`. -/
def strEndsWith (s suffix : String) : Bool :=
  decide (s.data.drop (s.data.length - suffix.data.length) = suffix.data)

/-- Check `filename.lower().endswith(('.png', '.jpg', '.jpeg'))`. -/
def isImageFilename (s : String) : Bool :=
  strEndsWith (strLower s) ".png" || strEndsWith (strLower s) ".jpg" ||
    strEndsWith (strLower s) ".jpeg"

/-- The stem part of `os.path.splitext`: split at the last dot, unless all
characters before it are dots (leading dots do not split). -/
def splitextStem (s : String) : String :=
  let cs := s.data
  let i := cs.reverse.indexOf '.'
  if i < cs.length then
    let cut := cs.length - 1 - i
    if (cs.take cut).all (fun c => c = '.') then s else ⟨cs.take cut⟩
  else s

/-- A directory of image files: filename together with the decoded image
(`none` when `load_image_file` would raise on it). -/
abbrev Folder (Enc : Type) := List (String × Option (FaceImage Enc))

/-- The `for` loop of `load_known_faces` with its accumulated dict; an
undecodable image file raises out of the (try-less) constructor. -/
def loadKnownFacesAux : Folder Enc → List (String × Enc) → Except Unit (List (String × Enc))
  | [], acc => .ok acc
  | (filename, img) :: rest, acc =>
    if isImageFilename filename then
      match img with
      | none => .error ()
      | some image =>
        match image.faces with
        | [] => loadKnownFacesAux rest acc
        | f :: _ => loadKnownFacesAux rest (dictInsert (splitextStem filename) f.2 acc)
    else loadKnownFacesAux rest acc

/-- Embedding of `IAInvestigation.load_known_faces`: scan the known-faces folder and
index the first encoding of each decodable image file by filename stem. -/
def load_known_faces (files : Folder Enc) : Except Unit (List (String × Enc)) :=
  loadKnownFacesAux files []

/-- Embedding of `IAInvestigation.add_known_face`: decode the image at `image_path`
(`img` is its decoding, `none` when `load_image_file` raises), and if it
has at least one encoding, store the first under `person_id` and save a
copy as `<person_id>.jpg`; `saveOk = false` is a raising `Image.save`,
whose exception is caught after the dict was already mutated. Returns the
new (known-faces dict, known-faces folder) and the success flag. -/
def add_known_face (kf : List (String × Enc)) (folder : Folder Enc)
    (img : Option (FaceImage Enc)) (person_id : String) (saveOk : Bool) :
    (List (String × Enc) × Folder Enc) × Bool :=
  match img with
  | none => ((kf, folder), false)
  | some image =>
    match image.faces with
    | [] => ((kf, folder), false)
    | f :: _ =>
      let kf' := dictInsert person_id f.2 kf
      if saveOk then
        ((kf', dictInsert (person_id ++ ".jpg") (some image) folder), true)
      else
        ((kf', folder), false)

end Faces

/-- Embedding of `IAInvestigation.correlate_entities`: flatten the entity lists and
deduplicate, then build the placeholder similarity matrix with
`np.zeros((len(unique_entities), dtype=int)` — a malformed call (a keyword
argument inside the shape tuple, with unbalanced parentheses), which can
never produce an array, so the routine fails before reaching the DBSCAN
clustering for every input. -/
def correlate_entities (entities_list : List (List String)) :
    Except String (List (Int × List String)) :=
  let all_entities := entities_list.foldl (fun acc entities => acc ++ entities) []
  let unique_entities := all_entities.dedup
  let _ := unique_entities
  .error "np.zeros((len(unique_entities), dtype=int): malformed call"

/-- One element of a platform's `connections` list; `name`/`relation` are
looked up with `.get(•, '')`. -/
structure Conn where
  name : Option String
  relation : Option String
deriving DecidableEq

/-- One platform's data object; `connections` is present or absent. -/
structure PlatformData where
  connections : Option (List Conn)
deriving DecidableEq

/-- The `social_data` request payload: platform name ↦ platform data. -/
abbrev SocialData := List (String × PlatformData)

/-- The per-name record accumulated by `analyze_social_connections`
(`relations` and `platforms` are Python sets, modelled as lists with
membership-tested insertion). -/
structure ConnInfo where
  relations : List String
  platforms : List String
  occurrences : ℕ
deriving DecidableEq

/-- Python `set.add`. -/
def setAdd (x : String) (l : List String) : List String :=
  if x ∈ l then l else l ++ [x]

/-- The inner loop body of `analyze_social_connections`: record one
connection entry of `platform` into the `connections` dict. -/
def addConnection (platform : String) (c : Conn) :
    List (String × ConnInfo) → List (String × ConnInfo)
  | [] =>
    [(c.name.getD "", ⟨setAdd (c.relation.getD "") [], setAdd platform [], 1⟩)]
  | (n, info) :: rest =>
    if n = c.name.getD "" then
      (n, ⟨setAdd (c.relation.getD "") info.relations,
           setAdd platform info.platforms, info.occurrences + 1⟩) :: rest
    else (n, info) :: addConnection platform c rest

/-- Embedding of `IAInvestigation.analyze_social_connections`: tally every connection
entry per name across platforms, then sort by occurrence count descending
(Python's stable `sorted` with `reverse=True`) and keep the top 5.
Returns (`all_connections`, `top_connections`). -/
def analyze_social_connections (sd : SocialData) :
    List (String × ConnInfo) × List (String × ConnInfo) :=
  let connections := sd.foldl
    (fun st pd =>
      match pd.2.connections with
      | none => st
      | some cs => cs.foldl (fun st c => addConnection pd.1 c st) st)
    []
  let sorted_connections :=
    connections.mergeSort (fun a b => decide (b.2.occurrences ≤ a.2.occurrences))
  (connections, sorted_connections.take 5)

/-! ### The Flask routes

Each handler is modelled as a function of its request data.  Routes that
read `request.json` receive an `Option` body (`none` when the request has
no parseable JSON body — there `request.json`/`data.get` raises and the
exception leaves the handler, modelled as `Except.error ()`); every field
looked up with `data.get(k, default)` is an `Option` field.  Routes that
read `request.files` receive an optional `FileUpload` and thread the
uploads folder through.  Serialisation of service results performed by
`jsonify` on external-model outputs is an explicit function parameter. -/

/-- A JSON value, the shape of a `jsonify` response body. -/
inductive JVal : Type
  | null : JVal
  | bool : Bool → JVal
  | num : ℚ → JVal
  | str : String → JVal
  | arr : List JVal → JVal
  | obj : List (String × JVal) → JVal

/-- Response `jsonify({"status": "error", "message": msg})`. -/
def errEnv (msg : String) : JVal :=
  .obj [("status", .str "error"), ("message", .str msg)]

/-- Response `jsonify({"status": "success", "results": r})` (or `"message"` for the
add-face success reply). -/
def okEnv (results : JVal) : JVal :=
  .obj [("status", .str "success"), ("results", results)]

/-- The uniform response envelope of the spec: a `status` field plus
either a `message` or a `results` payload. -/
def isEnvelope (j : JVal) : Prop :=
  ∃ st key payload, j = .obj [("status", JVal.str st), (key, payload)] ∧
    (st = "success" ∨ st = "error") ∧ (key = "message" ∨ key = "results")

/-- Serialisation by `jsonify` of one entry of the `recognize_faces` result list. -/
def jvalOfRecog (r : RecogResult) : JVal :=
  .obj [("location", .arr [.num r.location.1, .num r.location.2.1,
                           .num r.location.2.2.1, .num r.location.2.2.2]),
        ("name", .str r.name), ("confidence", .num r.confidence)]

/-- An entry of `request.files`: the client-sent filename and the file's
content (the image it decodes to, `none` for an undecodable file). -/
structure FileUpload (Enc : Type) where
  filename : String
  content : Option (FaceImage Enc)

/-- The uploads folder, filename ↦ stored content. -/
abbrev Uploads (Enc : Type) := List (String × Option (FaceImage Enc))

section Routes

variable {Enc : Type}

/-- Route `POST /ia/recognize_faces`: save the upload, run
`recognize_faces` on it, schedule removal of the upload
(`after_this_request`; `removeOk = false` is a raising, caught,
`os.remove`), and reply.  Returns the response and the uploads folder
after the request is handled. -/
def ia_recognize_faces (kf : List (String × Enc)) (d : Enc → Enc → ℚ)
    (file : Option (FileUpload Enc)) (uploads : Uploads Enc) (removeOk : Bool) :
    JVal × Uploads Enc :=
  match file with
  | none => (errEnv "Nenhum arquivo enviado", uploads)
  | some f =>
    if f.filename = "" then (errEnv "Nome de arquivo vazio", uploads)
    else
      let uploads1 := dictInsert f.filename f.content uploads
      let recognized_faces := recognize_faces kf d f.content
      let uploads2 := if removeOk then dremove f.filename uploads1 else uploads1
      (okEnv (.arr (recognized_faces.map jvalOfRecog)), uploads2)

/-- Route `POST /ia/add_known_face`: validate file and `person_id`, save
the upload, call `add_known_face`, remove the upload (`removeOk` as
above), and reply by the success flag.  Returns the response, the new
known-faces dict and folder, and the uploads folder after the request. -/
def ia_add_known_face (kf : List (String × Enc)) (folder : Folder Enc)
    (file : Option (FileUpload Enc)) (person_id_field : Option String)
    (uploads : Uploads Enc) (saveOk removeOk : Bool) :
    JVal × (List (String × Enc) × Folder Enc) × Uploads Enc :=
  match file with
  | none => (errEnv "Nenhum arquivo enviado", (kf, folder), uploads)
  | some f =>
    let person_id := person_id_field.getD ""
    if person_id = "" then (errEnv "ID da pessoa não fornecido", (kf, folder), uploads)
    else if f.filename = "" then (errEnv "Nome de arquivo vazio", (kf, folder), uploads)
    else
      let uploads1 := dictInsert f.filename f.content uploads
      let result := add_known_face kf folder f.content person_id saveOk
      let uploads2 := if removeOk then dremove f.filename uploads1 else uploads1
      if result.2 then
        (.obj [("status", .str "success"), ("message", .str "Rosto adicionado com sucesso")],
         result.1, uploads2)
      else
        (errEnv "Não foi possível adicionar o rosto", result.1, uploads2)

end Routes

/-- Route `POST /ia/analyze_text`: the body's `text` field (defaulted to
`''`) must be non-empty, else error 400; otherwise run the NLP analysis
(`analyzeText`, the external model pass-through serialised by `jsonify`). -/
def ia_analyze_text (analyzeText : String → JVal) (body : Option (Option String)) :
    Except Unit (JVal × ℕ) :=
  match body with
  | none => .error ()
  | some textField =>
    let text := textField.getD ""
    if text = "" then .ok (errEnv "Texto vazio", 400)
    else .ok (okEnv (analyzeText text), 200)

/-- Route `POST /ia/generate_hypotheses`: `evidence` defaults to `{}`;
`truthy = false` models a falsy (absent or empty) evidence object. -/
def ia_generate_hypotheses (generate : JVal → JVal)
    (body : Option (Option (JVal × Bool))) : Except Unit (JVal × ℕ) :=
  match body with
  | none => .error ()
  | some evidenceField =>
    match evidenceField with
    | none => .ok (errEnv "Nenhuma evidência fornecida", 400)
    | some (evidence, truthy) =>
      if truthy then .ok (okEnv (generate evidence), 200)
      else .ok (errEnv "Nenhuma evidência fornecida", 400)

/-- Route `POST /ia/answer_question`: both `context` and `question`
(defaulted to `''`) must be non-empty. -/
def ia_answer_question (answer : String → String → JVal)
    (body : Option (Option String × Option String)) : Except Unit (JVal × ℕ) :=
  match body with
  | none => .error ()
  | some fields =>
    let context := fields.1.getD ""
    let question := fields.2.getD ""
    if context = "" ∨ question = "" then .ok (errEnv "Contexto ou pergunta ausentes", 400)
    else .ok (okEnv (answer context question), 200)

/-- Route `POST /ia/correlate_entities`: `entities_list` defaults to `[]`
and must be non-empty; the (always failing) `correlate_entities` result is
serialised by the external `jsonify` (`serialize`). -/
def ia_correlate_entities (serialize : Except String (List (Int × List String)) → JVal)
    (body : Option (Option (List (List String)))) : Except Unit (JVal × ℕ) :=
  match body with
  | none => .error ()
  | some entitiesField =>
    let entities_list := entitiesField.getD []
    if entities_list = [] then .ok (errEnv "Lista de entidades vazia", 400)
    else .ok (okEnv (serialize (correlate_entities entities_list)), 200)

/-- Route `POST /ia/analyze_social_connections`: `social_data` defaults to
`{}` and must be non-empty (truthy). -/
def ia_analyze_social_connections
    (serialize : List (String × ConnInfo) × List (String × ConnInfo) → JVal)
    (body : Option (Option SocialData)) : Except Unit (JVal × ℕ) :=
  match body with
  | none => .error ()
  | some socialField =>
    let social_data := socialField.getD []
    if social_data = [] then .ok (errEnv "Dados sociais ausentes", 400)
    else .ok (okEnv (serialize (analyze_social_connections social_data)), 200)

/-- Occurrence count of `name` in the `connections` dict (0 when absent). -/
def occOf (name : String) (st : List (String × ConnInfo)) : ℕ :=
  match dlookup name st with
  | none => 0
  | some info => info.occurrences

/-- The occurrence count as the specification claim states it: the number
of connection entries bearing `name`, summed across all platforms of the
input (spec-side definition, to be compared with the code's tally). -/
def specOccurrenceCount (name : String) (sd : SocialData) : ℕ :=
  (sd.map (fun pd =>
    match pd.2.connections with
    | none => 0
    | some cs => cs.countP (fun c => decide (c.name.getD "" = name)))).sum

/-- A concrete distance function on integer encodings, used to instantiate
the abstract `face_distance` parameter in witnesses. -/
def dIntAbs (a b : ℤ) : ℚ := ((a - b).natAbs : ℚ)

/-! ### Helper lemmas on the dictionary model -/

theorem dlookup_dictInsert_self {α : Type} (k : String) (v : α) (m : List (String × α)) :
    dlookup k (dictInsert k v m) = some v := by
  induction m with
  | nil => simp [dictInsert, dlookup]
  | cons p rest ih =>
    obtain ⟨k', v'⟩ := p
    by_cases h : k' = k
    · simp [dictInsert, dlookup, h]
    · simp [dictInsert, dlookup, h, ih]

theorem dlookup_dictInsert_ne {α : Type} {k k' : String} (v : α) (m : List (String × α))
    (h : k' ≠ k) : dlookup k' (dictInsert k v m) = dlookup k' m := by
  induction m with
  | nil => simp [dictInsert, dlookup, Ne.symm h]
  | cons p rest ih =>
    obtain ⟨k₀, v₀⟩ := p
    by_cases h₀ : k₀ = k
    · subst h₀
      simp [dictInsert, dlookup, Ne.symm h]
    · by_cases h₁ : k₀ = k'
      · simp [dictInsert, dlookup, h₀, h₁, h]
      · simp [dictInsert, dlookup, h₀, h₁, ih]

theorem map_fst_dictInsert {α : Type} (k : String) (v : α) (m : List (String × α)) :
    (dictInsert k v m).map Prod.fst =
      if k ∈ m.map Prod.fst then m.map Prod.fst else m.map Prod.fst ++ [k] := by
  induction m with
  | nil => simp [dictInsert]
  | cons p rest ih =>
    obtain ⟨k₀, v₀⟩ := p
    by_cases h₀ : k₀ = k
    · subst h₀
      simp [dictInsert]
    · have : ¬ k = k₀ := fun hh => h₀ hh.symm
      by_cases hm : k ∈ rest.map Prod.fst <;>
        simp [dictInsert, h₀, hm, ih, this]

theorem nodup_map_fst_dictInsert {α : Type} (k : String) (v : α) (m : List (String × α))
    (h : (m.map Prod.fst).Nodup) : ((dictInsert k v m).map Prod.fst).Nodup := by
  rw [map_fst_dictInsert]
  by_cases hm : k ∈ m.map Prod.fst
  · simpa [hm]
  · simpa [hm, List.nodup_append] using h

theorem mem_map_fst_dremove {α : Type} (k k' : String) (m : List (String × α)) :
    k' ∈ (dremove k m).map Prod.fst ↔ k' ∈ m.map Prod.fst ∧ k' ≠ k := by
  induction m with
  | nil => simp [dremove]
  | cons p rest ih =>
    obtain ⟨k₀, v₀⟩ := p
    by_cases h₀ : k₀ = k
    · subst h₀
      simp only [dremove, List.filter] at ih ⊢
      simp only [ne_eq, decide_not] at ih ⊢
      simp [ih]
      tauto
    · simp only [dremove, List.filter] at ih ⊢
      simp only [ne_eq, decide_not] at ih ⊢
      simp [h₀, ih]
      constructor
      · rintro (rfl | h)
        · exact ⟨Or.inl rfl, h₀⟩
        · exact ⟨Or.inr h.1, h.2⟩
      · rintro ⟨rfl | h, hne⟩
        · exact Or.inl rfl
        · exact Or.inr ⟨h, hne⟩

theorem mem_map_fst_dictInsert {α : Type} (k k' : String) (v : α) (m : List (String × α)) :
    k' ∈ (dictInsert k v m).map Prod.fst ↔ k' = k ∨ k' ∈ m.map Prod.fst := by
  rw [map_fst_dictInsert]
  by_cases hm : k ∈ m.map Prod.fst
  · simp only [hm, if_true]
    constructor
    · exact Or.inr
    · rintro (rfl | h)
      · exact hm
      · exact h
  · simp [hm]
    tauto

/-! ### Helper lemmas on `argminIdx` -/

theorem argminIdx_eq_none {l : List ℚ} : argminIdx l = none ↔ l = [] := by
  cases l with
  | nil => simp [argminIdx]
  | cons x xs =>
    constructor
    · intro h
      exfalso
      cases hx : argminIdx xs with
      | none =>
        simp only [argminIdx, hx] at h
        exact Option.noConfusion h
      | some j =>
        simp only [argminIdx, hx] at h
        by_cases hle : x ≤ xs.getD j 0
        · rw [if_pos hle] at h
          exact Option.noConfusion h
        · rw [if_neg hle] at h
          exact Option.noConfusion h
    · intro h
      exact absurd h (List.cons_ne_nil x xs)

theorem argminIdx_lt_length {l : List ℚ} {i : ℕ} (h : argminIdx l = some i) : i < l.length := by
  induction l generalizing i with
  | nil => exact Option.noConfusion h
  | cons x xs ih =>
    cases hx : argminIdx xs with
    | none =>
      simp only [argminIdx, hx] at h
      cases h
      simp
    | some j =>
      simp only [argminIdx, hx] at h
      by_cases hle : x ≤ xs.getD j 0
      · rw [if_pos hle] at h
        cases h
        simp
      · rw [if_neg hle] at h
        cases h
        have := ih hx
        simp only [List.length_cons]
        omega

theorem argminIdx_le {l : List ℚ} {i : ℕ} (h : argminIdx l = some i) :
    ∀ j, j < l.length → l.getD i 0 ≤ l.getD j 0 := by
  induction l generalizing i with
  | nil => exact Option.noConfusion h
  | cons x xs ih =>
    cases hx : argminIdx xs with
    | none =>
      simp only [argminIdx, hx] at h
      cases h
      have hxs : xs = [] := argminIdx_eq_none.mp hx
      subst hxs
      intro j hj
      simp only [List.length_cons, List.length_nil] at hj
      have hj0 : j = 0 := by omega
      subst hj0
      simp
    | some j₀ =>
      simp only [argminIdx, hx] at h
      by_cases hle : x ≤ xs.getD j₀ 0
      · rw [if_pos hle] at h
        cases h
        intro j hj
        cases j with
        | zero => simp
        | succ j' =>
          simp only [List.getD_cons_zero, List.getD_cons_succ]
          exact le_trans hle (ih hx j' (by simpa using hj))
      · rw [if_neg hle] at h
        cases h
        intro j hj
        cases j with
        | zero =>
          simp only [List.getD_cons_succ, List.getD_cons_zero]
          exact le_of_lt (lt_of_not_le hle)
        | succ j' =>
          simp only [List.getD_cons_succ]
          exact ih hx j' (by simpa using hj)

/-! ### Helper lemmas on face recognition -/

theorem round2_zero : round2 0 = 0 := by
  simp [round2]

theorem recognizeOne_ok {Enc : Type} (kf : List (String × Enc)) (d : Enc → Enc → ℚ)
    (loc : Loc) (enc : Enc) (hkf : kf ≠ []) :
    ∃ (j : ℕ) (pj : String × Enc), kf[j]? = some pj ∧ (∀ p ∈ kf, d pj.2 enc ≤ d p.2 enc) ∧
      recognizeOne kf d loc enc =
        .ok (if d pj.2 enc ≤ faceTolerance
             then ⟨loc, pj.1, round2 (1 - d pj.2 enc)⟩
             else ⟨loc, "Desconhecido", round2 0⟩) := by
  have hne : (face_distance d (kf.map Prod.snd) enc) ≠ [] := by
    simp [face_distance, hkf]
  cases hbest : argminIdx (face_distance d (kf.map Prod.snd) enc) with
  | none => exact absurd (argminIdx_eq_none.mp hbest) hne
  | some best =>
    have hlt : best < kf.length := by
      have := argminIdx_lt_length hbest
      simpa [face_distance] using this
    refine ⟨best, kf[best], by simp [hlt], ?_, ?_⟩
    · intro p hp
      obtain ⟨n, hn, rfl⟩ := List.mem_iff_getElem.mp hp
      have hmin := argminIdx_le hbest n (by simpa [face_distance] using hn)
      have hbv : (face_distance d (kf.map Prod.snd) enc).getD best 0 = d (kf[best]).2 enc := by
        simp [face_distance, List.getD_eq_getElem?_getD, hlt]
      have hnv : (face_distance d (kf.map Prod.snd) enc).getD n 0 = d (kf[n]).2 enc := by
        simp [face_distance, List.getD_eq_getElem?_getD, hn]
      rw [hbv, hnv] at hmin
      exact hmin
    · simp only [recognizeOne, hbest]
      have hmv : (compare_faces d (kf.map Prod.snd) enc).getD best false =
          decide (d (kf[best]).2 enc ≤ faceTolerance) := by
        simp [compare_faces, List.getD_eq_getElem?_getD, hlt]
      have hbv : (face_distance d (kf.map Prod.snd) enc).getD best 0 = d (kf[best]).2 enc := by
        simp [face_distance, List.getD_eq_getElem?_getD, hlt]
      have hnmv : (kf.map Prod.fst).getD best "" = (kf[best]).1 := by
        simp [List.getD_eq_getElem?_getD, hlt]
      rw [hmv, hbv, hnmv]
      by_cases htol : d (kf[best]).2 enc ≤ faceTolerance
      · simp [htol]
      · simp [htol]

theorem recognizeAll_ok {Enc : Type} (kf : List (String × Enc)) (d : Enc → Enc → ℚ)
    (hkf : kf ≠ []) : ∀ faces : List (Loc × Enc),
    ∃ rs, recognizeAll kf d faces = .ok rs ∧ rs.length = faces.length ∧
      ∀ (i : ℕ) (loc : Loc) (enc : Enc), faces[i]? = some (loc, enc) →
        ∃ (j : ℕ) (pj : String × Enc), kf[j]? = some pj ∧ (∀ p ∈ kf, d pj.2 enc ≤ d p.2 enc) ∧
          rs[i]? = some (if d pj.2 enc ≤ faceTolerance
                         then (⟨loc, pj.1, round2 (1 - d pj.2 enc)⟩ : RecogResult)
                         else ⟨loc, "Desconhecido", round2 0⟩) := by
  intro faces
  induction faces with
  | nil =>
    refine ⟨[], rfl, rfl, ?_⟩
    intro i loc enc h
    simp at h
  | cons f rest ih =>
    obtain ⟨floc, fenc⟩ := f
    obtain ⟨rs, hrs, hlen, hidx⟩ := ih
    obtain ⟨j, pj, hj, hmin, hone⟩ := recognizeOne_ok kf d floc fenc hkf
    refine ⟨(if d pj.2 fenc ≤ faceTolerance
             then (⟨floc, pj.1, round2 (1 - d pj.2 fenc)⟩ : RecogResult)
             else ⟨floc, "Desconhecido", round2 0⟩) :: rs, ?_, ?_, ?_⟩
    · simp only [recognizeAll, hone, hrs]
    · simpa using hlen
    · intro i loc enc h
      cases i with
      | zero =>
        simp only [List.getElem?_cons_zero, Option.some.injEq] at h
        cases h
        exact ⟨j, pj, hj, hmin, by simp⟩
      | succ i' =>
        simp only [List.getElem?_cons_succ] at h
        simpa using hidx i' loc enc h

/-! ### Helper lemmas on the known-faces folder scan -/

theorem loadKnownFacesAux_nodup {Enc : Type} (files : Folder Enc) :
    ∀ (acc kf : List (String × Enc)), loadKnownFacesAux files acc = .ok kf →
      (acc.map Prod.fst).Nodup → (kf.map Prod.fst).Nodup := by
  induction files with
  | nil =>
    intro acc kf h hn
    simp only [loadKnownFacesAux] at h
    cases h
    exact hn
  | cons p rest ih =>
    obtain ⟨filename, img⟩ := p
    intro acc kf h hn
    cases himg : isImageFilename filename with
    | false =>
      simp only [loadKnownFacesAux, himg, Bool.false_eq_true, if_false] at h
      exact ih acc kf h hn
    | true =>
      cases img with
      | none =>
        simp only [loadKnownFacesAux, himg, if_true] at h
        exact Except.noConfusion h
      | some image =>
        cases hf : image.faces with
        | nil =>
          simp only [loadKnownFacesAux, himg, if_true, hf] at h
          exact ih acc kf h hn
        | cons f fs =>
          simp only [loadKnownFacesAux, himg, if_true, hf] at h
          exact ih _ kf h (nodup_map_fst_dictInsert _ _ acc hn)

/-! ### Helper lemmas on the social-connections tally -/

theorem dlookup_mem {α : Type} {k : String} {v : α} :
    ∀ {m : List (String × α)}, dlookup k m = some v → (k, v) ∈ m := by
  intro m
  induction m with
  | nil => intro h; exact Option.noConfusion h
  | cons p rest ih =>
    obtain ⟨k₀, v₀⟩ := p
    intro h
    by_cases h₀ : k₀ = k
    · subst h₀
      simp only [dlookup, if_true] at h
      cases h
      exact List.mem_cons_self _ _
    · simp only [dlookup, if_neg h₀] at h
      exact List.mem_cons_of_mem _ (ih h)

theorem occOf_cons (name n : String) (info : ConnInfo) (rest : List (String × ConnInfo)) :
    occOf name ((n, info) :: rest) =
      if n = name then info.occurrences else occOf name rest := by
  by_cases h : n = name
  · simp [occOf, dlookup, h]
  · simp [occOf, dlookup, h]

theorem occOf_addConnection (platform : String) (c : Conn) (name : String)
    (st : List (String × ConnInfo)) :
    occOf name (addConnection platform c st) =
      occOf name st + (if c.name.getD "" = name then 1 else 0) := by
  induction st with
  | nil =>
    by_cases h : c.name.getD "" = name
    · simp [addConnection, occOf, dlookup, h]
    · simp [addConnection, occOf, dlookup, h]
  | cons p rest ih =>
    obtain ⟨n, info⟩ := p
    by_cases hn : n = c.name.getD ""
    · simp only [addConnection, if_pos hn, occOf_cons]
      by_cases hname : n = name
      · have hc : c.name.getD "" = name := hn.symm.trans hname
        simp [hname, hc]
      · have hc : ¬ c.name.getD "" = name := by
          rw [← hn]
          exact hname
        simp [hname, hc]
    · simp only [addConnection, if_neg hn, occOf_cons]
      by_cases hname : n = name
      · have hc : ¬ c.name.getD "" = name := by
          intro hcc
          exact hn (hname.trans hcc.symm)
        simp [hname, hc]
      · simp [hname, ih]

theorem occOf_foldl_conns (platform : String) (cs : List Conn) (name : String) :
    ∀ st, occOf name (cs.foldl (fun st c => addConnection platform c st) st) =
      occOf name st + cs.countP (fun c => decide (c.name.getD "" = name)) := by
  induction cs with
  | nil => intro st; simp
  | cons c rest ih =>
    intro st
    simp only [List.foldl_cons, List.countP_cons]
    rw [ih, occOf_addConnection]
    by_cases h : c.name.getD "" = name
    · simp [h]
      omega
    · simp [h]

theorem occOf_foldl_platforms (sd : SocialData) (name : String) :
    ∀ st, occOf name (sd.foldl
        (fun st pd =>
          match pd.2.connections with
          | none => st
          | some cs => cs.foldl (fun st c => addConnection pd.1 c st) st) st) =
      occOf name st + specOccurrenceCount name sd := by
  induction sd with
  | nil => intro st; simp [specOccurrenceCount]
  | cons pd rest ih =>
    intro st
    simp only [List.foldl_cons]
    cases hc : pd.2.connections with
    | none =>
      rw [ih]
      simp [specOccurrenceCount, hc]
    | some cs =>
      rw [ih, occOf_foldl_conns]
      simp [specOccurrenceCount, hc]
      omega

theorem occ_pos_addConnection (platform : String) (c : Conn)
    (st : List (String × ConnInfo)) (h : ∀ e ∈ st, 1 ≤ e.2.occurrences) :
    ∀ e ∈ addConnection platform c st, 1 ≤ e.2.occurrences := by
  induction st with
  | nil =>
    intro e he
    simp only [addConnection, List.mem_singleton] at he
    subst he
    simp
  | cons p rest ih =>
    obtain ⟨n, info⟩ := p
    intro e he
    by_cases hn : n = c.name.getD ""
    · simp only [addConnection, if_pos hn] at he
      rcases List.mem_cons.mp he with h1 | h2
      · subst h1; simp
      · exact h e (List.mem_cons_of_mem _ h2)
    · simp only [addConnection, if_neg hn] at he
      rcases List.mem_cons.mp he with h1 | h2
      · subst h1
        exact h (n, info) (List.mem_cons_self _ _)
      · exact ih (fun e' he' => h e' (List.mem_cons_of_mem _ he')) e h2

theorem occ_pos_foldl_conns (platform : String) (cs : List Conn) :
    ∀ st, (∀ e ∈ st, 1 ≤ e.2.occurrences) →
      ∀ e ∈ cs.foldl (fun st c => addConnection platform c st) st, 1 ≤ e.2.occurrences := by
  induction cs with
  | nil => intro st h; simpa using h
  | cons c rest ih =>
    intro st h
    simp only [List.foldl_cons]
    exact ih _ (occ_pos_addConnection platform c st h)

theorem occ_pos_foldl_platforms (sd : SocialData) :
    ∀ st, (∀ e ∈ st, 1 ≤ e.2.occurrences) →
      ∀ e ∈ sd.foldl
        (fun st pd =>
          match pd.2.connections with
          | none => st
          | some cs => cs.foldl (fun st c => addConnection pd.1 c st) st) st,
        1 ≤ e.2.occurrences := by
  induction sd with
  | nil => intro st h; simpa using h
  | cons pd rest ih =>
    intro st h
    simp only [List.foldl_cons]
    cases hc : pd.2.connections with
    | none =>
      exact ih st h
    | some cs =>
      exact ih _ (occ_pos_foldl_conns pd.1 cs st h)

/-! ### Claim theorems -/

/-- C1 counterexample: the claim fails when the known-faces cache is
empty — an image with one detected face yields no result at all (the
`np.argmin` exception empties the result), not one result for its face. -/
theorem recognize_faces_per_face_counterexample :
    recognize_faces ([] : List (String × ℤ)) dIntAbs
        (some ⟨[((1, 2, 3, 4), 0)]⟩) = [] ∧
    (FaceImage.mk [((1, 2, 3, 4), (0 : ℤ))]).faces.length = 1 :=
  ⟨rfl, rfl⟩

/-- C1 (amended: provided at least one identity is cached): recognize
returns one result per detected face; each result carries a cached
identity whose embedding is at minimum face-distance to the face, named
when that distance is within the 0.6 tolerance with confidence
`round2 (1 - distance)`, and otherwise "Desconhecido" with confidence 0. -/
theorem recognize_faces_spec {Enc : Type} (kf : List (String × Enc)) (d : Enc → Enc → ℚ)
    (img : FaceImage Enc) (hkf : kf ≠ []) :
    (recognize_faces kf d (some img)).length = img.faces.length ∧
    ∀ (i : ℕ) (loc : Loc) (enc : Enc), img.faces[i]? = some (loc, enc) →
      ∃ (j : ℕ) (pj : String × Enc), kf[j]? = some pj ∧
        (∀ p ∈ kf, d pj.2 enc ≤ d p.2 enc) ∧
        (recognize_faces kf d (some img))[i]? =
          some (if d pj.2 enc ≤ faceTolerance
                then (⟨loc, pj.1, round2 (1 - d pj.2 enc)⟩ : RecogResult)
                else ⟨loc, "Desconhecido", 0⟩) := by
  obtain ⟨rs, hrs, hlen, hidx⟩ := recognizeAll_ok kf d hkf img.faces
  have hrf : recognize_faces kf d (some img) = rs := by
    simp [recognize_faces, hrs]
  constructor
  · rw [hrf]
    exact hlen
  · intro i loc enc h
    obtain ⟨j, pj, hj, hmin, hval⟩ := hidx i loc enc h
    refine ⟨j, pj, hj, hmin, ?_⟩
    rw [hrf, hval, round2_zero]

/-- C1 witness: a two-identity cache and a two-face image, checking the
one-result-per-face conclusion at concrete inputs. -/
theorem recognize_faces_spec_witness :
    ([("alice", (0 : ℤ)), ("bob", 2)] : List (String × ℤ)) ≠ [] ∧
    (recognize_faces [("alice", (0 : ℤ)), ("bob", 2)] dIntAbs
        (some ⟨[((1, 2, 3, 4), 0), ((5, 6, 7, 8), 10)]⟩)).length =
      (FaceImage.mk [((1, 2, 3, 4), (0 : ℤ)), ((5, 6, 7, 8), 10)]).faces.length :=
  ⟨List.cons_ne_nil _ _,
   (recognize_faces_spec [("alice", (0 : ℤ)), ("bob", 2)] dIntAbs
      ⟨[((1, 2, 3, 4), 0), ((5, 6, 7, 8), 10)]⟩ (List.cons_ne_nil _ _)).1⟩

/-- C9: with an empty known-faces mapping, recognize applied to an image
with at least one detected face returns the empty list (the nearest
neighbour step raises and the broad handler returns []), not one
"Desconhecido" entry per detected face. -/
theorem recognize_faces_empty_cache {Enc : Type} (d : Enc → Enc → ℚ) (img : FaceImage Enc)
    (h : img.faces ≠ []) :
    recognize_faces ([] : List (String × Enc)) d (some img) = [] ∧
    recognize_faces ([] : List (String × Enc)) d (some img) ≠
      img.faces.map (fun f => ⟨f.1, "Desconhecido", 0⟩) := by
  cases hf : img.faces with
  | nil => exact absurd hf h
  | cons f rest =>
    have hone : recognizeOne ([] : List (String × Enc)) d f.1 f.2 = .error () := rfl
    have hall : recognizeAll ([] : List (String × Enc)) d (f :: rest) = .error () := by
      simp only [recognizeAll, hone]
    constructor
    · simp [recognize_faces, hf, hall]
    · simp [recognize_faces, hf, hall]

/-- C9 witness: the empty cache on a one-face image. -/
theorem recognize_faces_empty_cache_witness :
    (FaceImage.mk [((1, 2, 3, 4), (5 : ℤ))]).faces ≠ [] ∧
    recognize_faces ([] : List (String × ℤ)) dIntAbs
      (some ⟨[((1, 2, 3, 4), 5)]⟩) = [] :=
  ⟨List.cons_ne_nil _ _,
   (recognize_faces_empty_cache dIntAbs ⟨[((1, 2, 3, 4), 5)]⟩ (List.cons_ne_nil _ _)).1⟩

/-- C2: the malformed `np.zeros` call makes `correlate_entities` fail for
every non-empty `entities_list`; it never produces a cluster mapping. -/
theorem correlate_entities_always_fails (entities_list : List (List String))
    (h : entities_list ≠ []) :
    (∀ clusters, correlate_entities entities_list ≠ .ok clusters) ∧
    correlate_entities entities_list =
      .error "np.zeros((len(unique_entities), dtype=int): malformed call" := by
  refine ⟨?_, rfl⟩
  intro clusters hc
  simp [correlate_entities] at hc

/-- C2 witness: a concrete two-source entity list. -/
theorem correlate_entities_always_fails_witness :
    ([["Maria", "Lisboa"], ["Maria"]] : List (List String)) ≠ [] ∧
    correlate_entities [["Maria", "Lisboa"], ["Maria"]] ≠ .ok [] :=
  ⟨List.cons_ne_nil _ _,
   (correlate_entities_always_fails [["Maria", "Lisboa"], ["Maria"]]
      (List.cons_ne_nil _ _)).1 []⟩

/-- C3: identifiers in the known-faces dict are unique after the folder
scan and after every add; adding under an existing identifier overwrites
its embedding (last-write-wins) and leaves every other identifier's
entry unchanged. -/
theorem known_faces_identifier_unique {Enc : Type} (files : Folder Enc)
    (kf₀ kf : List (String × Enc)) (folder : Folder Enc)
    (img : Option (FaceImage Enc)) (person_id : String) (saveOk : Bool)
    (image : FaceImage Enc) (loc : Loc) (enc : Enc) (restFaces : List (Loc × Enc))
    (h₀ : load_known_faces files = .ok kf₀)
    (hnodup : (kf.map Prod.fst).Nodup)
    (hfaces : image.faces = (loc, enc) :: restFaces) :
    (kf₀.map Prod.fst).Nodup ∧
    ((add_known_face kf folder img person_id saveOk).1.1.map Prod.fst).Nodup ∧
    dlookup person_id (add_known_face kf folder (some image) person_id saveOk).1.1 =
      some enc ∧
    (∀ k, k ≠ person_id →
      dlookup k (add_known_face kf folder (some image) person_id saveOk).1.1 =
        dlookup k kf) := by
  refine ⟨loadKnownFacesAux_nodup files [] kf₀ h₀ (by simp), ?_, ?_, ?_⟩
  · cases img with
    | none => simpa [add_known_face] using hnodup
    | some image' =>
      cases hf : image'.faces with
      | nil => simpa [add_known_face, hf] using hnodup
      | cons f fs =>
        cases saveOk <;>
          simpa [add_known_face, hf] using nodup_map_fst_dictInsert person_id f.2 kf hnodup
  · cases saveOk <;> simp [add_known_face, hfaces, dlookup_dictInsert_self]
  · intro k hk
    cases saveOk <;> simp [add_known_face, hfaces, dlookup_dictInsert_ne _ _ hk]

/-- C3 witness: a one-file folder scan and an overwriting add at concrete
inputs. -/
theorem known_faces_identifier_unique_witness :
    (([("a", (3 : ℤ))].map Prod.fst).Nodup) ∧
    dlookup "a" (add_known_face [("a", (3 : ℤ))] ([] : Folder ℤ)
        (some ⟨[((0, 0, 0, 0), 9)]⟩) "a" true).1.1 = some 9 :=
  have h := known_faces_identifier_unique
    [("a.jpg", some (⟨[((0, 0, 0, 0), (3 : ℤ))]⟩ : FaceImage ℤ))] [("a", 3)] [("a", 3)] []
    (some ⟨[((0, 0, 0, 0), 9)]⟩) "a" true ⟨[((0, 0, 0, 0), 9)]⟩ (0, 0, 0, 0) 9 []
    rfl (by decide) rfl
  ⟨h.1, h.2.2.1⟩

/-- C4: with at least one detectable face (and the image copy saving
without an exception) add stores the first embedding under the supplied
identifier, persists the copy as `<person_id>.jpg`, and reports success;
with no detectable face it reports failure and changes nothing. -/
theorem add_known_face_spec {Enc : Type} (kf : List (String × Enc)) (folder : Folder Enc)
    (person_id : String) (img imgNoFace : FaceImage Enc) (loc : Loc) (enc : Enc)
    (restFaces : List (Loc × Enc))
    (hfaces : img.faces = (loc, enc) :: restFaces)
    (hnoface : imgNoFace.faces = []) :
    (add_known_face kf folder (some img) person_id true).2 = true ∧
    dlookup person_id (add_known_face kf folder (some img) person_id true).1.1 =
      some enc ∧
    dlookup (person_id ++ ".jpg")
      (add_known_face kf folder (some img) person_id true).1.2 = some (some img) ∧
    add_known_face kf folder (some imgNoFace) person_id true = ((kf, folder), false) := by
  refine ⟨?_, ?_, ?_, ?_⟩
  · simp [add_known_face, hfaces]
  · simp [add_known_face, hfaces, dlookup_dictInsert_self]
  · simp [add_known_face, hfaces, dlookup_dictInsert_self]
  · simp [add_known_face, hnoface]

/-- C4 witness: an add of a one-face image and of a no-face image at
concrete inputs. -/
theorem add_known_face_spec_witness :
    (add_known_face ([] : List (String × ℤ)) ([] : Folder ℤ)
        (some ⟨[((0, 0, 0, 0), 4)]⟩) "p" true).2 = true ∧
    dlookup "p" (add_known_face ([] : List (String × ℤ)) ([] : Folder ℤ)
        (some ⟨[((0, 0, 0, 0), 4)]⟩) "p" true).1.1 = some 4 ∧
    add_known_face ([] : List (String × ℤ)) ([] : Folder ℤ)
        (some ⟨[]⟩) "p" true = (([], []), false) :=
  have h := add_known_face_spec ([] : List (String × ℤ)) [] "p"
    ⟨[((0, 0, 0, 0), 4)]⟩ ⟨[]⟩ (0, 0, 0, 0) 4 [] rfl rfl
  ⟨h.1, h.2.1, h.2.2.2⟩

/-- C10: when the image-copy save raises after a face was extracted, add
reports failure yet the known-faces dict was already updated with the new
embedding (the folder is unchanged): the operation is not atomic. -/
theorem add_known_face_not_atomic {Enc : Type} (kf : List (String × Enc))
    (folder : Folder Enc) (person_id : String) (img : FaceImage Enc) (loc : Loc)
    (enc : Enc) (restFaces : List (Loc × Enc))
    (hfaces : img.faces = (loc, enc) :: restFaces) :
    (add_known_face kf folder (some img) person_id false).2 = false ∧
    dlookup person_id (add_known_face kf folder (some img) person_id false).1.1 =
      some enc ∧
    (add_known_face kf folder (some img) person_id false).1.2 = folder := by
  refine ⟨?_, ?_, ?_⟩
  · simp [add_known_face, hfaces]
  · simp [add_known_face, hfaces, dlookup_dictInsert_self]
  · simp [add_known_face, hfaces]

/-- C10 witness: a failing save at concrete inputs. -/
theorem add_known_face_not_atomic_witness :
    (add_known_face ([] : List (String × ℤ)) ([] : Folder ℤ)
        (some ⟨[((0, 0, 0, 0), 4)]⟩) "p" false).2 = false ∧
    dlookup "p" (add_known_face ([] : List (String × ℤ)) ([] : Folder ℤ)
        (some ⟨[((0, 0, 0, 0), 4)]⟩) "p" false).1.1 = some 4 :=
  have h := add_known_face_not_atomic ([] : List (String × ℤ)) [] "p"
    ⟨[((0, 0, 0, 0), 4)]⟩ (0, 0, 0, 0) 4 [] rfl
  ⟨h.1, h.2.1⟩

/-- Envelope shape of an error reply. -/
theorem isEnvelope_errEnv (msg : String) : isEnvelope (errEnv msg) :=
  ⟨"error", "message", .str msg, rfl, Or.inr rfl, Or.inl rfl⟩

/-- Envelope shape of a success reply. -/
theorem isEnvelope_okEnv (r : JVal) : isEnvelope (okEnv r) :=
  ⟨"success", "results", r, rfl, Or.inl rfl, Or.inr rfl⟩

/-- C6: a POST to /ia/analyze_text whose text field is empty (or missing,
defaulting to empty) is rejected with status "error" and HTTP 400, and
the NLP analysis is not invoked (the reply does not depend on the
analyzer). -/
theorem analyze_text_empty_rejected (analyzeText analyzeText' : String → JVal)
    (textField : Option String) (h : textField.getD "" = "") :
    ia_analyze_text analyzeText (some textField) = .ok (errEnv "Texto vazio", 400) ∧
    errEnv "Texto vazio" =
      .obj [("status", .str "error"), ("message", .str "Texto vazio")] ∧
    ia_analyze_text analyzeText (some textField) =
      ia_analyze_text analyzeText' (some textField) := by
  refine ⟨?_, rfl, ?_⟩
  · simp [ia_analyze_text, h]
  · simp [ia_analyze_text, h]

/-- C6 witness: a request body with the text field absent. -/
theorem analyze_text_empty_rejected_witness :
    (Option.getD (none : Option String) "" = "") ∧
    ia_analyze_text (fun _ => JVal.null) (some none) = .ok (errEnv "Texto vazio", 400) :=
  ⟨rfl,
   (analyze_text_empty_rejected (fun _ => JVal.null) (fun _ => JVal.str "x") none rfl).1⟩

/-- C5 counterexample: a POST to /ia/analyze_text with no parseable JSON
body escapes the handler as an exception (a framework error response, not
the status/message envelope), so the claim fails as stated. -/
theorem analyze_text_no_body_counterexample :
    ia_analyze_text (fun _ => JVal.null) none = .error () :=
  rfl

/-- C5 (amended): every reply a route handler itself completes is the
uniform envelope of a status plus a message or results payload, and a
present JSON body with required fields missing (e.g. an absent text
field on /ia/analyze_text) yields an error envelope; however a request
whose JSON body cannot be read escapes the handler as an exception. -/
theorem routes_envelope_spec {Enc : Type} (kf : List (String × Enc)) (d : Enc → Enc → ℚ)
    (folder : Folder Enc) (file : Option (FileUpload Enc)) (uploads : Uploads Enc)
    (person_id_field : Option String) (saveOk removeOk : Bool)
    (analyzeText : String → JVal) (generate : JVal → JVal)
    (answer : String → String → JVal)
    (serializeCorr : Except String (List (Int × List String)) → JVal)
    (serializeSocial : List (String × ConnInfo) × List (String × ConnInfo) → JVal)
    (textField : Option String) (evidenceField : Option (JVal × Bool))
    (qaFields : Option String × Option String)
    (entitiesField : Option (List (List String))) (socialField : Option SocialData) :
    isEnvelope (ia_recognize_faces kf d file uploads removeOk).1 ∧
    isEnvelope (ia_add_known_face kf folder file person_id_field uploads saveOk removeOk).1 ∧
    (∃ j c, ia_analyze_text analyzeText (some textField) = .ok (j, c) ∧ isEnvelope j) ∧
    (∃ j c, ia_generate_hypotheses generate (some evidenceField) = .ok (j, c) ∧
      isEnvelope j) ∧
    (∃ j c, ia_answer_question answer (some qaFields) = .ok (j, c) ∧ isEnvelope j) ∧
    (∃ j c, ia_correlate_entities serializeCorr (some entitiesField) = .ok (j, c) ∧
      isEnvelope j) ∧
    (∃ j c, ia_analyze_social_connections serializeSocial (some socialField) = .ok (j, c) ∧
      isEnvelope j) ∧
    ia_analyze_text analyzeText (some none) = .ok (errEnv "Texto vazio", 400) := by
  refine ⟨?_, ?_, ?_, ?_, ?_, ?_, ?_, by simp [ia_analyze_text]⟩
  · cases file with
    | none => exact isEnvelope_errEnv _
    | some f =>
      by_cases hf : f.filename = ""
      · simp only [ia_recognize_faces, if_pos hf]
        exact isEnvelope_errEnv _
      · simp only [ia_recognize_faces, if_neg hf]
        exact isEnvelope_okEnv _
  · cases file with
    | none => exact isEnvelope_errEnv _
    | some f =>
      by_cases hp : person_id_field.getD "" = ""
      · simp only [ia_add_known_face, if_pos hp]
        exact isEnvelope_errEnv _
      · by_cases hf : f.filename = ""
        · simp only [ia_add_known_face, if_neg hp, if_pos hf]
          exact isEnvelope_errEnv _
        · cases hs : (add_known_face kf folder f.content (person_id_field.getD "") saveOk).2 with
          | false =>
            simp only [ia_add_known_face, if_neg hp, if_neg hf, hs, Bool.false_eq_true, if_false]
            exact isEnvelope_errEnv _
          | true =>
            simp only [ia_add_known_face, if_neg hp, if_neg hf, hs, if_true]
            exact ⟨"success", "message", .str "Rosto adicionado com sucesso", rfl,
              Or.inl rfl, Or.inl rfl⟩
  · by_cases h : textField.getD "" = ""
    · exact ⟨errEnv "Texto vazio", 400, by simp [ia_analyze_text, h], isEnvelope_errEnv _⟩
    · exact ⟨okEnv (analyzeText (textField.getD "")), 200, by simp [ia_analyze_text, h],
        isEnvelope_okEnv _⟩
  · cases evidenceField with
    | none => exact ⟨errEnv "Nenhuma evidência fornecida", 400, rfl, isEnvelope_errEnv _⟩
    | some et =>
      obtain ⟨e, truthy⟩ := et
      cases truthy with
      | false =>
        exact ⟨errEnv "Nenhuma evidência fornecida", 400,
          by simp [ia_generate_hypotheses], isEnvelope_errEnv _⟩
      | true =>
        exact ⟨okEnv (generate e), 200, by simp [ia_generate_hypotheses], isEnvelope_okEnv _⟩
  · by_cases h : qaFields.1.getD "" = "" ∨ qaFields.2.getD "" = ""
    · exact ⟨errEnv "Contexto ou pergunta ausentes", 400,
        by simp only [ia_answer_question, if_pos h], isEnvelope_errEnv _⟩
    · exact ⟨okEnv (answer (qaFields.1.getD "") (qaFields.2.getD "")), 200,
        by simp only [ia_answer_question, if_neg h], isEnvelope_okEnv _⟩
  · by_cases h : entitiesField.getD [] = []
    · exact ⟨errEnv "Lista de entidades vazia", 400,
        by simp only [ia_correlate_entities, if_pos h], isEnvelope_errEnv _⟩
    · exact ⟨okEnv (serializeCorr (correlate_entities (entitiesField.getD []))), 200,
        by simp only [ia_correlate_entities, if_neg h], isEnvelope_okEnv _⟩
  · by_cases h : socialField.getD [] = []
    · exact ⟨errEnv "Dados sociais ausentes", 400,
        by simp only [ia_analyze_social_connections, if_pos h], isEnvelope_errEnv _⟩
    · exact ⟨okEnv (serializeSocial (analyze_social_connections (socialField.getD []))), 200,
        by simp only [ia_analyze_social_connections, if_neg h], isEnvelope_okEnv _⟩

/-- C7: with `os.remove` raising no exception, handling an upload-saving
request to /ia/recognize_faces or /ia/add_known_face leaves the uploads
folder without the uploaded filename and with no file it did not already
hold. -/
theorem uploads_removed_after_handling {Enc : Type} (kf : List (String × Enc))
    (d : Enc → Enc → ℚ) (folder : Folder Enc) (f : FileUpload Enc)
    (person_id_field : Option String) (uploads : Uploads Enc) (saveOk : Bool)
    (hfn : f.filename ≠ "") (hpid : person_id_field.getD "" ≠ "") :
    (∀ k, k ∈ ((ia_recognize_faces kf d (some f) uploads true).2.map Prod.fst) ↔
      (k ∈ uploads.map Prod.fst ∧ k ≠ f.filename)) ∧
    f.filename ∉ ((ia_recognize_faces kf d (some f) uploads true).2.map Prod.fst) ∧
    (∀ k, k ∈ ((ia_add_known_face kf folder (some f) person_id_field uploads
        saveOk true).2.2.map Prod.fst) ↔
      (k ∈ uploads.map Prod.fst ∧ k ≠ f.filename)) ∧
    f.filename ∉ ((ia_add_known_face kf folder (some f) person_id_field uploads
        saveOk true).2.2.map Prod.fst) := by
  have key : ∀ k, k ∈ ((dremove f.filename
      (dictInsert f.filename f.content uploads)).map Prod.fst) ↔
      (k ∈ uploads.map Prod.fst ∧ k ≠ f.filename) := by
    intro k
    rw [mem_map_fst_dremove]
    constructor
    · rintro ⟨hk, hne⟩
      rcases (mem_map_fst_dictInsert _ _ _ _).mp hk with rfl | h
      · exact absurd rfl hne
      · exact ⟨h, hne⟩
    · rintro ⟨hk, hne⟩
      exact ⟨(mem_map_fst_dictInsert _ _ _ _).mpr (Or.inr hk), hne⟩
  have hrec : (ia_recognize_faces kf d (some f) uploads true).2 =
      dremove f.filename (dictInsert f.filename f.content uploads) := by
    simp [ia_recognize_faces, hfn]
  have hadd : (ia_add_known_face kf folder (some f) person_id_field uploads saveOk true).2.2 =
      dremove f.filename (dictInsert f.filename f.content uploads) := by
    cases hres : (add_known_face kf folder f.content (person_id_field.getD "") saveOk).2 <;>
      simp [ia_add_known_face, hfn, hpid, hres]
  refine ⟨?_, ?_, ?_, ?_⟩
  · intro k
    rw [hrec]
    exact key k
  · rw [hrec]
    intro hmem
    exact ((key f.filename).mp hmem).2 rfl
  · intro k
    rw [hadd]
    exact key k
  · rw [hadd]
    intro hmem
    exact ((key f.filename).mp hmem).2 rfl

/-- C7 witness: a concrete upload named "img.jpg" into an empty uploads
folder. -/
theorem uploads_removed_after_handling_witness :
    ("img.jpg" : String) ≠ "" ∧
    "img.jpg" ∉ ((ia_recognize_faces ([] : List (String × ℤ)) dIntAbs
      (some ⟨"img.jpg", some ⟨[]⟩⟩) [] true).2.map Prod.fst) :=
  ⟨by decide,
   (uploads_removed_after_handling ([] : List (String × ℤ)) dIntAbs []
      ⟨"img.jpg", some ⟨[]⟩⟩ (some "p") [] true (by decide) (by decide)).2.1⟩

/-- C8: the social-connection analysis returns the tally of all discovered
connections plus a top list of at most 5 entries sorted by decreasing
occurrence count, where a name's occurrence count equals the number of
connection entries bearing it summed across all platforms. -/
theorem analyze_social_connections_spec (sd : SocialData) :
    (analyze_social_connections sd).2.length ≤ 5 ∧
    (analyze_social_connections sd).2.Pairwise
      (fun a b => b.2.occurrences ≤ a.2.occurrences) ∧
    (∀ e, e ∈ (analyze_social_connections sd).2 → e ∈ (analyze_social_connections sd).1) ∧
    (∀ name info, dlookup name (analyze_social_connections sd).1 = some info →
      info.occurrences = specOccurrenceCount name sd) ∧
    (∀ name, (dlookup name (analyze_social_connections sd).1).isSome ↔
      specOccurrenceCount name sd ≠ 0) := by
  have htop : (analyze_social_connections sd).2 =
      ((sd.foldl (fun st pd =>
          match pd.2.connections with
          | none => st
          | some cs => cs.foldl (fun st c => addConnection pd.1 c st) st)
        []).mergeSort (fun a b => decide (b.2.occurrences ≤ a.2.occurrences))).take 5 := rfl
  have hall : (analyze_social_connections sd).1 =
      sd.foldl (fun st pd =>
          match pd.2.connections with
          | none => st
          | some cs => cs.foldl (fun st c => addConnection pd.1 c st) st)
        [] := rfl
  have hocc : ∀ name, occOf name (analyze_social_connections sd).1 =
      specOccurrenceCount name sd := by
    intro name
    rw [hall, occOf_foldl_platforms]
    simp [occOf, dlookup]
  have hpos : ∀ e, e ∈ (analyze_social_connections sd).1 → 1 ≤ e.2.occurrences := by
    rw [hall]
    exact occ_pos_foldl_platforms sd [] (by simp)
  refine ⟨?_, ?_, ?_, ?_, ?_⟩
  · rw [htop]
    exact List.length_take_le 5 _
  · rw [htop]
    refine List.Pairwise.sublist (List.take_sublist 5 _) ?_
    have hs : ((sd.foldl (fun st pd =>
          match pd.2.connections with
          | none => st
          | some cs => cs.foldl (fun st c => addConnection pd.1 c st) st)
        []).mergeSort
          (fun a b => decide (b.2.occurrences ≤ a.2.occurrences))).Pairwise
        (fun a b => decide (b.2.occurrences ≤ a.2.occurrences) = true) :=
      List.sorted_mergeSort
        (fun a b c h₁ h₂ => by
          simp only [decide_eq_true_eq] at h₁ h₂ ⊢
          omega)
        (fun a b => by
          simp only [Bool.or_eq_true, decide_eq_true_eq]
          omega)
        (sd.foldl (fun st pd =>
            match pd.2.connections with
            | none => st
            | some cs => cs.foldl (fun st c => addConnection pd.1 c st) st)
          [])
    exact hs.imp (fun h => by simpa using h)
  · intro e he
    rw [htop] at he
    rw [hall]
    have := List.mem_of_mem_take he
    simpa [hall] using List.mem_mergeSort.mp this
  · intro name info hinfo
    have h := hocc name
    rw [occOf, hinfo] at h
    exact h
  · intro name
    constructor
    · intro hsome
      cases hinfo : dlookup name (analyze_social_connections sd).1 with
      | none =>
        rw [hinfo] at hsome
        simp at hsome
      | some info =>
        have h := hocc name
        rw [occOf, hinfo] at h
        have h' : info.occurrences = specOccurrenceCount name sd := h
        have h1 : 1 ≤ info.occurrences := hpos (name, info) (dlookup_mem hinfo)
        omega
    · intro hne
      cases hinfo : dlookup name (analyze_social_connections sd).1 with
      | none =>
        have h := hocc name
        rw [occOf, hinfo] at h
        exact absurd h.symm hne
      | some info => simp

end RastroLegal